import Mathlib

/-!
Verification of the command-queue and line-editor core of `drawxterm.js`
(class `DrawCommand`, class `DrawCommandQueue`, class `DrawTerm`).

The embedding follows the newer revision of the file
(`src/unnamed/part_000`); where the two shipped revisions differ
(trailing-backslash continuation, promise-based command evaluation,
LF to CRLF correction in styled output) the newer revision is the one
the specification describes, and its line numbers are the ones the
claims cite.

Modelling conventions:
* The linked list of `DrawCommand` nodes (`_myFirst` / `_myNext`) is
  represented by the list of nodes reachable from `_myFirst`, in chain
  order; `_myLast == null` is kept as a separate boolean field because
  the code branches on it independently of `_myFirst`.  In every state
  reachable from the empty queue `_myLast` points at the final chain
  node whenever it is non-null, which is what the representation assumes.
* JavaScript numbers holding the queue length and the history cursor are
  modelled as `Int` (they are only ever incremented, decremented and
  compared in this code).
* Terminal output (`this._myTerm.write`) is modelled as an append-only
  log of the written strings, and `setTimeout` scheduling of
  `_termPopCommandFromQueue` as a counter of how many drain steps were
  scheduled.
* External collaborators that are outside the queue/editor core
  (the WASM `this.eval`, and the browser-API bodies of
  `_commandJsdownload` / `_commandJsupload`, which the specification
  lists as non-goals) are parameters: each maps a command-argument
  string to the terminal writes it performs and its success / failure
  outcome.
-/

/-- Command in queue to execute (`class DrawCommand`): the command text
and the to-echo flag.  The `_myNext` pointer is represented by the
position of the command inside the queue's chain. -/
structure DrawCommand where
  command : String
  toEcho : Bool
deriving DecidableEq

/-- Queue of commands to execute (`class DrawCommandQueue`).
`firstChain` is the list of nodes reachable from `_myFirst` following
`_myNext` (so `firstChain = []` models `_myFirst == null`), `lastNull`
models `_myLast == null`, and `_myLength` is the stored length field. -/
structure DrawCommandQueue where
  firstChain : List DrawCommand
  lastNull : Bool
  _myLength : Int
deriving DecidableEq

/-- The queue constructor: `_myFirst = null`, `_myLast = null`,
`_myLength = 0`. -/
def DrawCommandQueue.init : DrawCommandQueue :=
  { firstChain := [], lastNull := true, _myLength := 0 }

/-- Method `isEmpty()`: TRUE if the stored length is zero. -/
def DrawCommandQueue.isEmpty (q : DrawCommandQueue) : Bool :=
  q._myLength == 0

/-- Method `extent()`: the stored length. -/
def DrawCommandQueue.extent (q : DrawCommandQueue) : Int :=
  q._myLength

/-- Method `add (theCmd)`: if `_myLast != null`, link the new node after the
last one and increment the length; otherwise the queue is fresh and the
new node becomes both first and last with length one. -/
def DrawCommandQueue.add (q : DrawCommandQueue) (theCmd : DrawCommand) :
    DrawCommandQueue :=
  if q.lastNull = false then
    { firstChain := q.firstChain ++ [theCmd], lastNull := false,
      _myLength := q._myLength + 1 }
  else
    { firstChain := [theCmd], lastNull := false, _myLength := 1 }

/-- Method `pop()`: if `_myFirst == null` return null and change nothing;
otherwise unlink the first node, decrement the length, and null out
`_myLast` when the decremented length hits zero. -/
def DrawCommandQueue.pop (q : DrawCommandQueue) :
    Option DrawCommand × DrawCommandQueue :=
  match q.firstChain with
  | [] => (none, q)
  | anItem :: rest =>
    (some anItem,
      { firstChain := rest,
        lastNull := if q._myLength - 1 = 0 then true else q.lastNull,
        _myLength := q._myLength - 1 })

/-- Representation well-formedness: the stored length counts the nodes
reachable from `_myFirst`, and `_myLast` is null exactly when the chain
is empty.  Every state reachable from `DrawCommandQueue.init` by `add`
and `pop` satisfies it. -/
def DrawCommandQueue.WF (q : DrawCommandQueue) : Prop :=
  q._myLength = (q.firstChain.length : Int) ∧
    q.lastNull = q.firstChain.isEmpty

instance (q : DrawCommandQueue) : Decidable q.WF := by
  unfold DrawCommandQueue.WF; infer_instance

/-- One queue operation: an `add` of a command or a `pop`. -/
inductive QueueOp where
  | add (cmd : DrawCommand)
  | pop
deriving DecidableEq

/-- Run a sequence of queue operations, returning the final queue and
the list of commands returned by the successful pops, in order. -/
def runOps (q : DrawCommandQueue) : List QueueOp →
    DrawCommandQueue × List DrawCommand
  | [] => (q, [])
  | QueueOp.add c :: ops => runOps (q.add c) ops
  | QueueOp.pop :: ops =>
    match q.pop with
    | (some c, q') => ((runOps q' ops).1, c :: (runOps q' ops).2)
    | (none, q') => runOps q' ops

theorem runOps_pop_some (q q' : DrawCommandQueue) (c : DrawCommand)
    (ops : List QueueOp) (h : q.pop = (some c, q')) :
    runOps q (QueueOp.pop :: ops) =
      ((runOps q' ops).1, c :: (runOps q' ops).2) := by
  simp only [runOps]
  rw [h]

theorem runOps_pop_none (q q' : DrawCommandQueue) (ops : List QueueOp)
    (h : q.pop = (none, q')) :
    runOps q (QueueOp.pop :: ops) = runOps q' ops := by
  simp only [runOps]
  rw [h]

/-- The commands added by a sequence of operations, in order. -/
def addsOf (ops : List QueueOp) : List DrawCommand :=
  ops.filterMap fun op =>
    match op with
    | QueueOp.add c => some c
    | QueueOp.pop => none

theorem add_WF (q : DrawCommandQueue) (c : DrawCommand) (h : q.WF) :
    (q.add c).WF ∧ (q.add c).firstChain = q.firstChain ++ [c] := by
  obtain ⟨hlen, hlast⟩ := h
  unfold DrawCommandQueue.add
  by_cases hl : q.lastNull = false
  · simp only [hl, if_pos rfl]
    have hchain : q.firstChain.isEmpty = false := by rw [← hlast, hl]
    constructor
    · constructor
      · simp [hlen]
      · simp
    · rfl
  · have hl' : q.lastNull = true := by
      cases hq : q.lastNull
      · exact absurd hq hl
      · rfl
    have hchain : q.firstChain = [] := by
      have : q.firstChain.isEmpty = true := by rw [← hlast, hl']
      exact List.isEmpty_iff.mp this
    simp only [hl']
    constructor
    · constructor
      · simp
      · simp
    · simp [hchain]

theorem pop_WF (q : DrawCommandQueue) (h : q.WF) :
    (q.pop.2).WF ∧
      ((q.firstChain = [] ∧ q.pop = (none, q)) ∨
        (∃ c rest, q.firstChain = c :: rest ∧
          q.pop.1 = some c ∧ (q.pop.2).firstChain = rest)) := by
  obtain ⟨hlen, hlast⟩ := h
  unfold DrawCommandQueue.pop
  cases hchain : q.firstChain with
  | nil =>
    refine ⟨⟨hlen.trans ?_, ?_⟩, Or.inl ⟨rfl, rfl⟩⟩
    · rw [hchain]
    · rw [hlast]
  | cons c rest =>
    rw [hchain] at hlen
    constructor
    · constructor
      · simp only [hlen, List.length_cons]
        push_cast
        omega
      · by_cases hr : rest = []
        · subst hr
          simp only [hlen, List.length_cons]
          norm_num
        · have h1 : q._myLength - 1 ≠ 0 := by
            simp only [hlen, List.length_cons]
            have : 1 ≤ rest.length := by
              cases rest with
              | nil => exact absurd rfl hr
              | cons _ _ => simp
            push_cast
            omega
          simp only [if_neg h1, hlast, hchain]
          simp [hr]
    · exact Or.inr ⟨c, rest, rfl, rfl, rfl⟩

/-- The central reachable-state invariant: running any operation
sequence from a well-formed queue keeps the representation well-formed,
and the nodes originally in the queue followed by the commands added
equal the commands popped followed by the nodes remaining. -/
theorem runOps_invariant (ops : List QueueOp) :
    ∀ q : DrawCommandQueue, q.WF →
      (runOps q ops).1.WF ∧
        q.firstChain ++ addsOf ops =
          (runOps q ops).2 ++ (runOps q ops).1.firstChain := by
  induction ops with
  | nil =>
    intro q hq
    exact ⟨hq, by simp [runOps, addsOf]⟩
  | cons op ops ih =>
    intro q hq
    cases op with
    | add c =>
      obtain ⟨hwf, hchain⟩ := add_WF q c hq
      obtain ⟨hwf', heq⟩ := ih (q.add c) hwf
      refine ⟨hwf', ?_⟩
      simp only [runOps, addsOf, List.filterMap_cons] at *
      rw [← heq, hchain]
      simp [addsOf]
    | pop =>
      obtain ⟨hwf, hcases⟩ := pop_WF q hq
      cases hcases with
      | inl hnil =>
        obtain ⟨hchain, hpop⟩ := hnil
        obtain ⟨hwf', heq⟩ := ih q.pop.2 hwf
        have hq2 : q.pop.2 = q := by rw [hpop]
        rw [hq2] at hwf' heq
        rw [runOps_pop_none q q ops hpop]
        refine ⟨hwf', ?_⟩
        simp only [addsOf, List.filterMap_cons] at *
        exact heq
      | inr hcons =>
        obtain ⟨c, rest, hchain, hfst, hsnd⟩ := hcons
        obtain ⟨hwf', heq⟩ := ih q.pop.2 hwf
        have hpop : q.pop = (some c, q.pop.2) := by
          rw [← hfst]
        rw [runOps_pop_some q q.pop.2 c ops hpop]
        refine ⟨hwf', ?_⟩
        simp only [addsOf, List.filterMap_cons] at *
        rw [hsnd] at heq
        rw [hchain]
        simp only [List.cons_append]
        rw [heq]

/-- C1: for every sequence of add and pop operations starting from the
empty queue, the commands returned by successful pops followed by the
commands still in the queue equal the commands added, in order; in
particular, once the queue is drained the popped sequence equals the
added sequence (FIFO). -/
theorem queue_fifo_order (ops : List QueueOp) :
    addsOf ops =
      (runOps DrawCommandQueue.init ops).2 ++
        (runOps DrawCommandQueue.init ops).1.firstChain ∧
    ((runOps DrawCommandQueue.init ops).1.firstChain = [] →
      (runOps DrawCommandQueue.init ops).2 = addsOf ops) := by
  have h := runOps_invariant ops DrawCommandQueue.init (by decide)
  obtain ⟨-, heq⟩ := h
  have h0 : DrawCommandQueue.init.firstChain = [] := rfl
  rw [h0, List.nil_append] at heq
  refine ⟨heq, fun hnil => ?_⟩
  rw [heq, hnil, List.append_nil]

/-- Closed instance of `queue_fifo_order`: adding "a" and "b" and then
popping twice returns "a" then "b" and drains the queue. -/
theorem queue_fifo_order_witness :
    addsOf [QueueOp.add ⟨"a", false⟩, QueueOp.add ⟨"b", true⟩,
        QueueOp.pop, QueueOp.pop] =
      (runOps DrawCommandQueue.init [QueueOp.add ⟨"a", false⟩,
        QueueOp.add ⟨"b", true⟩, QueueOp.pop, QueueOp.pop]).2 ++
        (runOps DrawCommandQueue.init [QueueOp.add ⟨"a", false⟩,
          QueueOp.add ⟨"b", true⟩, QueueOp.pop, QueueOp.pop]).1.firstChain ∧
    ((runOps DrawCommandQueue.init [QueueOp.add ⟨"a", false⟩,
        QueueOp.add ⟨"b", true⟩, QueueOp.pop, QueueOp.pop]).1.firstChain = [] →
      (runOps DrawCommandQueue.init [QueueOp.add ⟨"a", false⟩,
        QueueOp.add ⟨"b", true⟩, QueueOp.pop, QueueOp.pop]).2 =
        addsOf [QueueOp.add ⟨"a", false⟩, QueueOp.add ⟨"b", true⟩,
          QueueOp.pop, QueueOp.pop]) :=
  queue_fifo_order [QueueOp.add ⟨"a", false⟩, QueueOp.add ⟨"b", true⟩,
    QueueOp.pop, QueueOp.pop]

/-- C7: popping a well-formed empty queue returns null and leaves the
queue (first, last and length fields alike) unchanged. -/
theorem pop_empty_returns_null (q : DrawCommandQueue) (hwf : q.WF)
    (he : q.isEmpty = true) : q.pop = (none, q) := by
  obtain ⟨hlen, -⟩ := hwf
  have hz : q._myLength = 0 := by
    simpa [DrawCommandQueue.isEmpty] using he
  have hchain : q.firstChain = [] := by
    rw [hz] at hlen
    have : q.firstChain.length = 0 := by exact_mod_cast hlen.symm
    exact List.length_eq_zero.mp this
  unfold DrawCommandQueue.pop
  rw [hchain]

/-- Closed instance of `pop_empty_returns_null` at the freshly
constructed queue. -/
theorem pop_empty_returns_null_witness :
    DrawCommandQueue.init.WF ∧ DrawCommandQueue.init.isEmpty = true ∧
      DrawCommandQueue.init.pop = (none, DrawCommandQueue.init) :=
  ⟨by decide, by decide,
    pop_empty_returns_null DrawCommandQueue.init (by decide) (by decide)⟩

/-- C8: after any sequence of add and pop operations from the empty
queue, the stored length equals the count of live nodes reachable from
the head, and `isEmpty()` holds exactly when every added command has
been matched by a successful pop. -/
theorem queue_length_counts_live_nodes (ops : List QueueOp) :
    (runOps DrawCommandQueue.init ops).1._myLength =
      ((runOps DrawCommandQueue.init ops).1.firstChain.length : Int) ∧
    ((runOps DrawCommandQueue.init ops).1.isEmpty = true ↔
      (runOps DrawCommandQueue.init ops).2.length = (addsOf ops).length) := by
  have h := runOps_invariant ops DrawCommandQueue.init (by decide)
  obtain ⟨⟨hlen, -⟩, heq⟩ := h
  have h0 : DrawCommandQueue.init.firstChain = [] := rfl
  rw [h0, List.nil_append] at heq
  refine ⟨hlen, ?_⟩
  constructor
  · intro hemp
    have hz : (runOps DrawCommandQueue.init ops).1._myLength = 0 := by
      simpa [DrawCommandQueue.isEmpty] using hemp
    have hcl : (runOps DrawCommandQueue.init ops).1.firstChain.length = 0 := by
      rw [hz] at hlen
      exact_mod_cast hlen.symm
    rw [heq, List.length_append, hcl, Nat.add_zero]
  · intro hout
    have hadds := congrArg List.length heq
    rw [List.length_append] at hadds
    have hcl : (runOps DrawCommandQueue.init ops).1.firstChain.length = 0 := by
      omega
    simp [DrawCommandQueue.isEmpty, hlen, hcl]

/-- The JavaScript `String.prototype.endsWith` test, by code point:
the code points of `post` are the final code points of `s`. -/
def jsEndsWith (s post : String) : Bool :=
  s.toList.drop (s.toList.length - post.toList.length) == post.toList

/-- The JavaScript `String.prototype.startsWith` test, by code point:
the code points of `pre` are the initial code points of `s`. -/
def jsStartsWith (s pre : String) : Bool :=
  s.toList.take pre.toList.length == pre.toList

/-- The JavaScript `String.prototype.trim`: strip whitespace from both
ends. -/
def jsTrim (s : String) : String :=
  String.mk
    (((s.toList.dropWhile Char.isWhitespace).reverse.dropWhile
      Char.isWhitespace).reverse)

/-- The JavaScript `theText.replace (/\n/g, '\n\r')` used by
`terminalWriteMultiline`: every LF becomes LF CR (each occurrence of
the single-character pattern is mapped independently). -/
def replaceLFwithCRLF (s : String) : String :=
  String.mk (s.toList.flatMap fun c => if c = '\n' then ['\n', '\r'] else [c])

/-- The editor / dispatcher state of `class DrawTerm` (the fields the
queue and line-editor core reads and writes), together with the
observable effects: `termOut` is the append-only log of strings passed
to `this._myTerm.write`, and `timeouts` counts the
`setTimeout(() => this._termPopCommandFromQueue(), ...)` calls made,
i.e. the drain steps scheduled. -/
structure DrawTerm where
  _myTermHello : String
  _myTermInCounter : Int
  _myTermLine : String
  _myTermHistory : List String
  _myTermHistoryPos : Int
  _myCmdQueue : DrawCommandQueue
  termOut : List String
  timeouts : Nat
deriving DecidableEq

/-- The `DrawTerm` constructor's initial values for the modelled
fields. -/
def DrawTerm.init : DrawTerm :=
  { _myTermHello := "Draw", _myTermInCounter := 0, _myTermLine := "",
    _myTermHistory := [], _myTermHistoryPos := -1,
    _myCmdQueue := DrawCommandQueue.init, termOut := [], timeouts := 0 }

/-- Method `terminalWrite (theText)`: pass the text to the terminal widget. -/
def terminalWrite (st : DrawTerm) (theText : String) : DrawTerm :=
  { st with termOut := st.termOut ++ [theText] }

/-- A sequence of `terminalWrite` calls, one per listed string. -/
def writeAll (st : DrawTerm) (theTexts : List String) : DrawTerm :=
  { st with termOut := st.termOut ++ theTexts }

/-- Method `terminalWriteMultiline (theText)`: write with automatic LF to CRLF
correction (`theText.replace (/\n/g, '\n\r')`). -/
def terminalWriteMultiline (st : DrawTerm) (theText : String) : DrawTerm :=
  terminalWrite st (replaceLFwithCRLF theText)

/-- Method `terminalWriteError (theText)`: write the text wrapped in the
red-bold ANSI style, through `terminalWriteMultiline`. -/
def terminalWriteError (st : DrawTerm) (theText : String) : DrawTerm :=
  terminalWriteMultiline st ("\n\r\x1B[31;1m" ++ theText ++ "\x1B[0m")

/-- Method `terminalPrintInputLine (theLine)`: write a CRLF and then the
green-bold `Draw[N]> ` prompt, pre-incrementing the input counter. -/
def terminalPrintInputLine (st : DrawTerm) : DrawTerm :=
  let st1 := terminalWrite st "\n\r"
  let aCounter := st1._myTermInCounter + 1
  { terminalWrite st1
      ("\x1B[32;1m" ++ st1._myTermHello ++ "[" ++ toString aCounter ++
        "]>\x1B[0m ")
    with _myTermInCounter := aCounter }

/-- External collaborators of `termEvaluateCommand`, outside the
queue/editor core: the WASM interpreter's `this.eval` (which may throw,
reported as `some` error text) and the browser-API bodies of
`_commandJsdownload` (returns a success boolean) and `_commandJsupload`
(returns a promise outcome).  Each maps the command-argument string to
the terminal writes it performs plus its outcome. -/
structure Externals where
  eval : String → List String × Option String
  jsdownload : String → List String × Bool
  jsupload : String → List String × Option String

/-- Outcome wrapper for the three `_commandJsdownload` dispatch arms of
`termEvaluateCommand`: a false result becomes a rejected promise
carrying `Error ("Command evaluation failed")`. -/
def jsdownloadStep (ext : Externals) (st : DrawTerm) (theArgs : String) :
    DrawTerm × Option String :=
  match ext.jsdownload theArgs with
  | (ws, true) => (writeAll st ws, none)
  | (ws, false) => (writeAll st ws, some "Error: Command evaluation failed")

/-- Outcome wrapper for the two `_commandJsupload` dispatch arms of
`termEvaluateCommand`: the promise returned by the upload is returned
directly. -/
def jsuploadStep (ext : Externals) (st : DrawTerm) (theArgs : String) :
    DrawTerm × Option String :=
  match ext.jsupload theArgs with
  | (ws, r) => (writeAll st ws, r)

/-- Method `termEvaluateCommand (theCmd)`: the empty command resolves
immediately; otherwise the history cursor is reset, the command is
pushed onto the history, and the command is dispatched on its prefix to
jsdownload / jsupload handlers or to the interpreter's `eval`.  The
second component models the returned promise: `none` for resolved,
`some err` for rejected with stringified reason `err` (a thrown `eval`
error is wrapped in `InternalError`). -/
def termEvaluateCommand (ext : Externals) (st : DrawTerm)
    (theCmd : String) : DrawTerm × Option String :=
  if theCmd = "" then
    (st, none)
  else
    let st1 := { st with _myTermHistoryPos := -1,
                         _myTermHistory := st._myTermHistory ++ [theCmd] }
    if jsStartsWith theCmd "jsdownload " then
      jsdownloadStep ext st1 (jsTrim (theCmd.drop 11))
    else if jsStartsWith theCmd "jsdown " then
      jsdownloadStep ext st1 (jsTrim (theCmd.drop 7))
    else if jsStartsWith theCmd "download " then
      jsdownloadStep ext st1 (jsTrim (theCmd.drop 9))
    else if jsStartsWith theCmd "jsupload " then
      jsuploadStep ext st1 (jsTrim (theCmd.drop 9))
    else if jsStartsWith theCmd "upload " then
      jsuploadStep ext st1 (jsTrim (theCmd.drop 7))
    else
      match ext.eval theCmd with
      | (ws, none) => (writeAll st1 ws, none)
      | (ws, some err) => (writeAll st1 ws, some ("InternalError: " ++ err))

/-- The promise outcome of `termEvaluateCommand` as a function of the
command text alone (the dispatch outcome never depends on the editor
state). -/
def termEvalOutcome (ext : Externals) (theCmd : String) : Option String :=
  if theCmd = "" then none
  else if jsStartsWith theCmd "jsdownload " then
    if (ext.jsdownload (jsTrim (theCmd.drop 11))).2 then none
    else some "Error: Command evaluation failed"
  else if jsStartsWith theCmd "jsdown " then
    if (ext.jsdownload (jsTrim (theCmd.drop 7))).2 then none
    else some "Error: Command evaluation failed"
  else if jsStartsWith theCmd "download " then
    if (ext.jsdownload (jsTrim (theCmd.drop 9))).2 then none
    else some "Error: Command evaluation failed"
  else if jsStartsWith theCmd "jsupload " then
    (ext.jsupload (jsTrim (theCmd.drop 9))).2
  else if jsStartsWith theCmd "upload " then
    (ext.jsupload (jsTrim (theCmd.drop 7))).2
  else
    match (ext.eval theCmd).2 with
    | none => none
    | some err => some ("InternalError: " ++ err)

/-- Method `_termQueueCommand (theCmd, theToEcho)`: append a new `DrawCommand`
to the queue and, when the queue extent has just become one, schedule a
drain step via `setTimeout`. -/
def _termQueueCommand (st : DrawTerm) (theCmd : String)
    (theToEcho : Bool) : DrawTerm :=
  let st1 := { st with
    _myCmdQueue := st._myCmdQueue.add ⟨theCmd, theToEcho⟩ }
  if st1._myCmdQueue.extent = 1 then
    { st1 with timeouts := st1.timeouts + 1 }
  else
    st1

/-- The `.then` / `.catch` continuations that `_termPopCommandFromQueue`
attaches to the promise returned by `termEvaluateCommand`: on the
resolved path print a fresh prompt; on the rejected path write the
rejection reason styled in red and then print a fresh prompt; on both
paths schedule the next drain step when the queue is still
non-empty. -/
def drainContinue (ext : Externals) (st2 : DrawTerm)
    (cmdText : String) : DrawTerm :=
  match termEvaluateCommand ext st2 cmdText with
  | (st3, none) =>
    let st4 := terminalPrintInputLine st3
    if st4._myCmdQueue.isEmpty then st4
    else { st4 with timeouts := st4.timeouts + 1 }
  | (st3, some err) =>
    let st4 := terminalPrintInputLine (terminalWriteError st3 err)
    if st4._myCmdQueue.isEmpty then st4
    else { st4 with timeouts := st4.timeouts + 1 }

/-- Method `_termPopCommandFromQueue()`: pop one command (returning unchanged
on an empty queue), echo it if marked, then evaluate it and continue
through the promise continuations of `drainContinue`. -/
def _termPopCommandFromQueue (ext : Externals) (st : DrawTerm) : DrawTerm :=
  match st._myCmdQueue.pop with
  | (none, q') => { st with _myCmdQueue := q' }
  | (some aCmd, q') =>
    let st1 := { st with _myCmdQueue := q' }
    let st2 := if aCmd.toEcho then terminalWrite st1 aCmd.command else st1
    drainContinue ext st2 aCmd.command

/-- A keyboard event as seen by `_onTermKeyEvent`: key code, event
type, key string and control-modifier flag. -/
structure KeyEvent where
  keyCode : Int
  type : String
  key : String
  ctrlKey : Bool
deriving DecidableEq

/-- The clear-current-input loop at the head of the arrow-key branch of
`_onTermKeyEvent`: while the in-progress line is non-empty, write a
backspace-erase sequence and drop the last character.  The fuel
argument is instantiated with the line length, which the loop decreases
by one per iteration. -/
def clearInputLoop : Nat → DrawTerm → DrawTerm
  | 0, st => st
  | n + 1, st =>
    clearInputLoop n
      { terminalWrite st "\x08 \x08" with
        _myTermLine := st._myTermLine.dropRight 1 }

/-- Method `_onTermKeyEvent (theEvent)`: arrow up/down on keydown erase the
current input and replace it with a history entry whose index moves by
±1 clamped to the history bounds (starting from the newest entry when
no cursor is active); arrows left/right, delete, page keys and
Ctrl+C / Ctrl+V are swallowed; every other key is passed through. -/
def _onTermKeyEvent (st : DrawTerm) (theEvent : KeyEvent) :
    DrawTerm × Bool :=
  if theEvent.keyCode = 38 ∨ theEvent.keyCode = 40 then
    let aDir : Int := if theEvent.keyCode = 38 then -1 else 1
    if theEvent.type ≠ "keydown" then (st, false)
    else
      let st1 := clearInputLoop st._myTermLine.length st
      if (st1._myTermHistory.length : Int) ≤ 0 then (st1, false)
      else
        let aPos :=
          if st1._myTermHistoryPos ≠ -1 then
            max (min (st1._myTermHistoryPos + aDir)
              ((st1._myTermHistory.length : Int) - 1)) 0
          else
            (st1._myTermHistory.length : Int) - 1
        let aHist := st1._myTermHistory.getD aPos.toNat ""
        (terminalWrite
          { st1 with _myTermHistoryPos := aPos, _myTermLine := aHist }
          aHist, false)
  else if theEvent.keyCode = 37 ∨ theEvent.keyCode = 39 ∨
      theEvent.keyCode = 46 then
    (st, false)
  else if theEvent.keyCode = 33 ∨ theEvent.keyCode = 34 ∨
      theEvent.keyCode = 35 ∨ theEvent.keyCode = 36 then
    (st, false)
  else if theEvent.key = "c" ∧ theEvent.ctrlKey then
    (st, false)
  else if theEvent.key = "v" ∧ theEvent.ctrlKey then
    (st, false)
  else
    (st, true)

/-- The character loop of `_onTermDataInput`, carrying the
`aNbNewLines` counter: deletion (0x7f) erases the last character of a
non-empty line (echoing only before the first completed line of the
event); carriage return (0x0d) strips a trailing backslash, or extends
a syntactically incomplete line with CRLF, or completes the line and
queues it; any other character is appended (echoed only before the
first completed line). -/
def onTermDataInputLoop (isComplete : String → Bool) :
    DrawTerm → List Char → Nat → DrawTerm
  | st, [], _ => st
  | st, aChar :: rest, aNbNewLines =>
    if aChar = '\x7f' then
      let st1 :=
        if st._myTermLine.length > 0 then
          let st' := if aNbNewLines = 0 then terminalWrite st "\x08 \x08"
                     else st
          { st' with _myTermLine := st'._myTermLine.dropRight 1 }
        else st
      onTermDataInputLoop isComplete st1 rest aNbNewLines
    else if aChar = '\x0d' then
      let aCmd := st._myTermLine
      if jsEndsWith aCmd "\\" then
        let st1 := { st with _myTermLine := st._myTermLine.dropRight 1 }
        let st2 := if aNbNewLines = 0 then terminalWrite st1 "\n\r> "
                   else st1
        onTermDataInputLoop isComplete st2 rest aNbNewLines
      else if !(isComplete aCmd) then
        let st1 := { st with _myTermLine := st._myTermLine ++ "\n\r" }
        let st2 := if aNbNewLines = 0 then terminalWrite st1 "\n\r> "
                   else st1
        onTermDataInputLoop isComplete st2 rest aNbNewLines
      else
        let st1 := { st with _myTermLine := "" }
        let st2 := _termQueueCommand st1 aCmd (aNbNewLines != 0)
        onTermDataInputLoop isComplete st2 rest (aNbNewLines + 1)
    else
      let st1 := if aNbNewLines = 0 then
                   terminalWrite st (String.singleton aChar)
                 else st
      onTermDataInputLoop isComplete
        { st1 with _myTermLine := st1._myTermLine.push aChar } rest
        aNbNewLines

/-- Method `_onTermDataInput (theEvent)`: run the character loop over the
event string with `aNbNewLines` starting at zero.  The syntactic
completeness check `this.isComplete` is the interpreter's and is a
parameter. -/
def _onTermDataInput (isComplete : String → Bool) (st : DrawTerm)
    (theEvent : String) : DrawTerm :=
  onTermDataInputLoop isComplete st theEvent.toList 0

/-- C9: evaluating the empty command returns immediately with a
resolved promise, leaves the whole state (history, history cursor,
queue, output, everything) unchanged, and holds for every choice of the
external evaluator, so no collaborator is invoked. -/
theorem termEvaluateCommand_empty_resolves (ext : Externals)
    (st : DrawTerm) : termEvaluateCommand ext st "" = (st, none) := by
  simp [termEvaluateCommand]

/-- C10: a deletion character (0x7f) arriving while the in-progress
line is empty leaves the entire state unchanged — nothing is written
and no field is touched. -/
theorem delete_on_empty_line_is_noop (isComplete : String → Bool)
    (st : DrawTerm) (h : st._myTermLine = "") :
    _onTermDataInput isComplete st "\x7f" = st := by
  obtain ⟨a, b, c, d, e, f, g, i⟩ := st
  simp only [DrawTerm.mk.injEq] at h ⊢
  subst h
  simp [_onTermDataInput, onTermDataInputLoop]

/-- Closed instance of `delete_on_empty_line_is_noop` at the initial
terminal state. -/
theorem delete_on_empty_line_is_noop_witness :
    DrawTerm.init._myTermLine = "" ∧
      _onTermDataInput (fun _ => true) DrawTerm.init "\x7f" =
        DrawTerm.init :=
  ⟨rfl, delete_on_empty_line_is_noop (fun _ => true) DrawTerm.init rfl⟩

/-- C3: a carriage return arriving while the in-progress line ends in a
backslash does not complete the line: no command is enqueued (queue and
scheduled drains unchanged), the trailing backslash is removed, and a
continuation row is written so input continues. -/
theorem trailing_backslash_continues_input (isComplete : String → Bool)
    (st : DrawTerm) (h : jsEndsWith st._myTermLine "\\" = true) :
    (_onTermDataInput isComplete st "\x0d")._myCmdQueue =
      st._myCmdQueue ∧
    (_onTermDataInput isComplete st "\x0d").timeouts = st.timeouts ∧
    (_onTermDataInput isComplete st "\x0d")._myTermLine =
      st._myTermLine.dropRight 1 ∧
    (_onTermDataInput isComplete st "\x0d").termOut =
      st.termOut ++ ["\n\r> "] := by
  simp [_onTermDataInput, onTermDataInputLoop, h, terminalWrite]

/-- Fixture for the C3 witness: a terminal whose in-progress line ends
in a backslash. -/
def stTrailingBackslash : DrawTerm :=
  { DrawTerm.init with _myTermLine := "ab\\" }

/-- Closed instance of `trailing_backslash_continues_input` at the
line `ab\`. -/
theorem trailing_backslash_continues_input_witness :
    jsEndsWith stTrailingBackslash._myTermLine "\\" = true ∧
    ((_onTermDataInput (fun _ => true) stTrailingBackslash
        "\x0d")._myCmdQueue = stTrailingBackslash._myCmdQueue ∧
      (_onTermDataInput (fun _ => true) stTrailingBackslash
        "\x0d").timeouts = stTrailingBackslash.timeouts ∧
      (_onTermDataInput (fun _ => true) stTrailingBackslash
        "\x0d")._myTermLine = stTrailingBackslash._myTermLine.dropRight 1 ∧
      (_onTermDataInput (fun _ => true) stTrailingBackslash
        "\x0d").termOut = stTrailingBackslash.termOut ++ ["\n\r> "]) :=
  ⟨by decide,
    trailing_backslash_continues_input (fun _ => true) stTrailingBackslash
      (by decide)⟩

/-- Fixture for C2: history holds "a" accepted first, then "b"; the
in-progress line is empty and no history cursor is active. -/
def histNavStart : DrawTerm :=
  { DrawTerm.init with _myTermHistory := ["a", "b"] }

/-- An ArrowUp keydown event. -/
def arrowUpKeydown : KeyEvent :=
  { keyCode := 38, type := "keydown", key := "ArrowUp", ctrlKey := false }

/-- An ArrowDown keydown event. -/
def arrowDownKeydown : KeyEvent :=
  { keyCode := 40, type := "keydown", key := "ArrowDown",
    ctrlKey := false }

/-- State after the first ArrowUp of the C2 scenario. -/
def histNav1 : DrawTerm := (_onTermKeyEvent histNavStart arrowUpKeydown).1

/-- State after the second ArrowUp of the C2 scenario. -/
def histNav2 : DrawTerm := (_onTermKeyEvent histNav1 arrowUpKeydown).1

/-- State after the final ArrowDown of the C2 scenario. -/
def histNav3 : DrawTerm := (_onTermKeyEvent histNav2 arrowDownKeydown).1

/-- C2 counterexample: with history ["a", "b"], Up, Up, Down does NOT
yield the lines "a", "b", "a" — the first ArrowUp recalls the newest
entry, not the oldest. -/
theorem history_nav_claimed_lines_false :
    ¬ (histNav1._myTermLine = "a" ∧ histNav2._myTermLine = "b" ∧
        histNav3._myTermLine = "a") := by
  decide

/-- C2 amended: the three events yield the in-progress lines "b", then
"a", then "b" (Up starts at the newest entry and moves toward older
ones), and a further ArrowUp from the oldest entry stays clamped
at "a". -/
theorem history_nav_lines :
    histNav1._myTermLine = "b" ∧ histNav2._myTermLine = "a" ∧
    histNav3._myTermLine = "b" ∧
    (_onTermKeyEvent histNav2 arrowUpKeydown).1._myTermLine = "a" := by
  decide

/-- C6: queueing a command bumps the scheduled-drain counter exactly
when the queue was empty just before the add — equivalently, when the
queue extent right after the add is one; adding to a non-empty queue
schedules nothing. -/
theorem enqueue_schedules_iff_queue_was_empty (st : DrawTerm)
    (theCmd : String) (theToEcho : Bool) (hwf : st._myCmdQueue.WF) :
    (_termQueueCommand st theCmd theToEcho).timeouts =
      st.timeouts + (if st._myCmdQueue.isEmpty then 1 else 0) ∧
    ((_termQueueCommand st theCmd theToEcho)._myCmdQueue.extent = 1 ↔
      st._myCmdQueue.isEmpty = true) := by
  obtain ⟨hlen, hlast⟩ := hwf
  by_cases hchain : st._myCmdQueue.firstChain = []
  · have hz : st._myCmdQueue._myLength = 0 := by
      rw [hlen, hchain]; rfl
    have hl : st._myCmdQueue.lastNull = true := by
      rw [hlast, hchain]; rfl
    have he : st._myCmdQueue.isEmpty = true := by
      simp [DrawCommandQueue.isEmpty, hz]
    simp [_termQueueCommand, DrawCommandQueue.add, DrawCommandQueue.extent,
      hl, he]
  · have hpos : 1 ≤ st._myCmdQueue._myLength := by
      rw [hlen]
      have : 1 ≤ st._myCmdQueue.firstChain.length := by
        cases hc : st._myCmdQueue.firstChain with
        | nil => exact absurd hc hchain
        | cons _ _ => simp
      exact_mod_cast this
    have hl : st._myCmdQueue.lastNull = false := by
      rw [hlast]
      simp [hchain]
    have he : st._myCmdQueue.isEmpty = false := by
      simp [DrawCommandQueue.isEmpty]
      omega
    have hne : ¬ st._myCmdQueue._myLength + 1 = 1 := by omega
    simp [_termQueueCommand, DrawCommandQueue.add, DrawCommandQueue.extent,
      hl, he, hne]

/-- Closed instance of `enqueue_schedules_iff_queue_was_empty` at the
initial (empty-queue) terminal state. -/
theorem enqueue_schedules_iff_queue_was_empty_witness :
    DrawTerm.init._myCmdQueue.WF ∧
    ((_termQueueCommand DrawTerm.init "pload" false).timeouts =
      DrawTerm.init.timeouts +
        (if DrawTerm.init._myCmdQueue.isEmpty then 1 else 0) ∧
    ((_termQueueCommand DrawTerm.init "pload"
        false)._myCmdQueue.extent = 1 ↔
      DrawTerm.init._myCmdQueue.isEmpty = true)) :=
  ⟨by decide,
    enqueue_schedules_iff_queue_was_empty DrawTerm.init "pload" false
      (by decide)⟩

/-- A regular character (neither deletion nor carriage return) arriving
before the first completed line of an event is echoed and appended to
the in-progress line. -/
theorem onTermDataInputLoop_regular_char (isComplete : String → Bool)
    (st : DrawTerm) (aChar : Char) (rest : List Char)
    (h1 : ¬ aChar = '\x7f') (h2 : ¬ aChar = '\x0d') :
    onTermDataInputLoop isComplete st (aChar :: rest) 0 =
      onTermDataInputLoop isComplete
        { st with _myTermLine := st._myTermLine.push aChar,
                  termOut := st.termOut ++ [String.singleton aChar] }
        rest 0 := by
  simp [onTermDataInputLoop, h1, h2, terminalWrite]

/-- A carriage return arriving at a line with no trailing backslash
that the interpreter judges complete resets the line and queues the
command, counting one more completed line. -/
theorem onTermDataInputLoop_cr_completes (isComplete : String → Bool)
    (st : DrawTerm) (rest : List Char)
    (hbs : jsEndsWith st._myTermLine "\\" = false)
    (hic : isComplete st._myTermLine = true) :
    onTermDataInputLoop isComplete st ('\x0d' :: rest) 0 =
      onTermDataInputLoop isComplete
        (_termQueueCommand { st with _myTermLine := "" }
          st._myTermLine false) rest 1 := by
  simp [onTermDataInputLoop, hbs, hic]

/-- C5: feeding the characters "echo" then a carriage return to a
terminal with an empty in-progress line, when the interpreter judges
"echo" complete, enqueues exactly one command — text "echo", echo flag
false — and resets the in-progress line to empty. -/
theorem echo_cr_enqueues_exactly_one (isComplete : String → Bool)
    (st : DrawTerm) (hline : st._myTermLine = "")
    (hwf : st._myCmdQueue.WF) (hic : isComplete "echo" = true) :
    (_onTermDataInput isComplete st "echo\x0d")._myTermLine = "" ∧
    (_onTermDataInput isComplete st "echo\x0d")._myCmdQueue.firstChain =
      st._myCmdQueue.firstChain ++ [⟨"echo", false⟩] := by
  obtain ⟨a, b, line, d, e, q, g, i⟩ := st
  simp only at hline hwf ⊢
  subst hline
  have htl : ("echo\x0d").toList = ['e', 'c', 'h', 'o', '\x0d'] := by
    decide
  unfold _onTermDataInput
  rw [htl]
  rw [onTermDataInputLoop_regular_char _ _ _ _ (by decide) (by decide)]
  rw [onTermDataInputLoop_regular_char _ _ _ _ (by decide) (by decide)]
  rw [onTermDataInputLoop_regular_char _ _ _ _ (by decide) (by decide)]
  rw [onTermDataInputLoop_regular_char _ _ _ _ (by decide) (by decide)]
  rw [onTermDataInputLoop_cr_completes _ _ _
    (by exact (by decide : jsEndsWith "echo" "\\" = false))
    (by exact hic)]
  simp only [onTermDataInputLoop, _termQueueCommand]
  constructor
  · split <;> rfl
  · have hadd := (add_WF q ⟨"echo", false⟩ hwf).2
    split
    · simpa using hadd
    · simpa using hadd

/-- Closed instance of `echo_cr_enqueues_exactly_one` at the initial
terminal state with an always-complete interpreter check. -/
theorem echo_cr_enqueues_exactly_one_witness :
    DrawTerm.init._myTermLine = "" ∧ DrawTerm.init._myCmdQueue.WF ∧
      (fun _ : String => true) "echo" = true ∧
    ((_onTermDataInput (fun _ => true) DrawTerm.init
        "echo\x0d")._myTermLine = "" ∧
      (_onTermDataInput (fun _ => true) DrawTerm.init
        "echo\x0d")._myCmdQueue.firstChain =
        DrawTerm.init._myCmdQueue.firstChain ++ [⟨"echo", false⟩]) :=
  ⟨rfl, by decide, rfl,
    echo_cr_enqueues_exactly_one (fun _ => true) DrawTerm.init rfl
      (by decide) rfl⟩

/-- The single string written by `terminalWriteError`: the red-bold
styled error text after LF to CRLF correction. -/
def errorStyledText (err : String) : String :=
  replaceLFwithCRLF ("\n\r\x1B[31;1m" ++ err ++ "\x1B[0m")

/-- The prompt string written by `terminalPrintInputLine` for a given
hello text and (already incremented) input counter. -/
def inputPromptText (hello : String) (counter : Int) : String :=
  "\x1B[32;1m" ++ hello ++ "[" ++ toString counter ++ "]>\x1B[0m "

theorem terminalWriteError_eq (st : DrawTerm) (err : String) :
    terminalWriteError st err =
      { st with termOut := st.termOut ++ [errorStyledText err] } := by
  simp [terminalWriteError, terminalWriteMultiline, terminalWrite,
    errorStyledText]

theorem terminalPrintInputLine_eq (st : DrawTerm) :
    terminalPrintInputLine st =
      { st with _myTermInCounter := st._myTermInCounter + 1,
                termOut := st.termOut ++
                  ["\n\r", inputPromptText st._myTermHello
                    (st._myTermInCounter + 1)] } := by
  simp [terminalPrintInputLine, terminalWrite, inputPromptText]

theorem termEvaluateCommand_frame (ext : Externals) (st : DrawTerm)
    (theCmd : String) :
    (termEvaluateCommand ext st theCmd).1._myCmdQueue = st._myCmdQueue ∧
    (termEvaluateCommand ext st theCmd).1.timeouts = st.timeouts ∧
    (termEvaluateCommand ext st theCmd).1._myTermInCounter =
      st._myTermInCounter ∧
    (termEvaluateCommand ext st theCmd).1._myTermHello =
      st._myTermHello ∧
    ∃ ws, (termEvaluateCommand ext st theCmd).1.termOut =
      st.termOut ++ ws := by
  unfold termEvaluateCommand jsdownloadStep jsuploadStep writeAll
  repeat' split
  all_goals refine ⟨rfl, rfl, rfl, rfl, ?_⟩
  all_goals first
    | exact ⟨_, rfl⟩
    | exact ⟨[], by simp⟩

theorem termEvaluateCommand_snd (ext : Externals) (st : DrawTerm)
    (theCmd : String) :
    (termEvaluateCommand ext st theCmd).2 =
      termEvalOutcome ext theCmd := by
  unfold termEvaluateCommand termEvalOutcome jsdownloadStep jsuploadStep
  repeat' split
  all_goals simp_all


theorem drainContinue_fail (ext : Externals) (st2 : DrawTerm)
    (cmdText err : String)
    (hfail : termEvalOutcome ext cmdText = some err)
    (hne : st2._myCmdQueue.isEmpty = false) :
    (drainContinue ext st2 cmdText)._myCmdQueue = st2._myCmdQueue ∧
    (drainContinue ext st2 cmdText).timeouts = st2.timeouts + 1 ∧
    ∃ ws, (drainContinue ext st2 cmdText).termOut =
      st2.termOut ++ ws ++
        [errorStyledText err, "\n\r",
          inputPromptText st2._myTermHello (st2._myTermInCounter + 1)] := by
  unfold drainContinue
  rcases htec : termEvaluateCommand ext st2 cmdText with ⟨st3, o⟩
  have ho : o = some err := by
    have h2 := termEvaluateCommand_snd ext st2 cmdText
    rw [htec] at h2
    rw [← hfail]
    exact h2
  subst ho
  have hfr := termEvaluateCommand_frame ext st2 cmdText
  rw [htec] at hfr
  obtain ⟨hq3, ht3, hc3, hh3, ws0, hout3⟩ := hfr
  simp only at hq3 ht3 hc3 hh3 hout3
  refine ⟨?_, ?_, ⟨ws0, ?_⟩⟩ <;>
    simp [terminalWriteError_eq, terminalPrintInputLine_eq, hq3, hne,
      ht3, hc3, hh3, hout3]

/-- C4: when at least two commands are queued and evaluating the first
one fails, the drain step still removes only the first command — the
second stays at the head of the queue — the failure is caught and
written as error-styled output followed by a fresh input prompt, and
the next drain step is scheduled because the queue is non-empty. -/
theorem failing_eval_does_not_block_next (ext : Externals)
    (st : DrawTerm) (c1 c2 : DrawCommand) (rest : List DrawCommand)
    (err : String) (hwf : st._myCmdQueue.WF)
    (hchain : st._myCmdQueue.firstChain = c1 :: c2 :: rest)
    (hfail : termEvalOutcome ext c1.command = some err) :
    (_termPopCommandFromQueue ext st)._myCmdQueue.firstChain =
      c2 :: rest ∧
    (_termPopCommandFromQueue ext st).timeouts = st.timeouts + 1 ∧
    ∃ ws, (_termPopCommandFromQueue ext st).termOut =
      st.termOut ++ ws ++
        [errorStyledText err, "\n\r",
          inputPromptText st._myTermHello (st._myTermInCounter + 1)] := by
  obtain ⟨hlen, hlast⟩ := hwf
  have hex : ∃ q', st._myCmdQueue.pop = (some c1, q') ∧
      q'.firstChain = c2 :: rest ∧
      q'._myLength = st._myCmdQueue._myLength - 1 := by
    unfold DrawCommandQueue.pop
    rw [hchain]
    exact ⟨_, rfl, rfl, rfl⟩
  obtain ⟨q', hpop, hq'chain, hq'len⟩ := hex
  have hlen2 : st._myCmdQueue._myLength = (rest.length : Int) + 2 := by
    rw [hlen, hchain]
    push_cast [List.length_cons]
    ring
  have hne : q'.isEmpty = false := by
    simp only [DrawCommandQueue.isEmpty, hq'len, hlen2]
    simp only [beq_eq_false_iff_ne, ne_eq]
    omega
  have heq : _termPopCommandFromQueue ext st =
      drainContinue ext
        (if c1.toEcho then
          terminalWrite { st with _myCmdQueue := q' } c1.command
         else { st with _myCmdQueue := q' }) c1.command := by
    unfold _termPopCommandFromQueue
    rw [hpop]
  rw [heq]
  by_cases hecho : c1.toEcho = true
  · rw [if_pos hecho]
    simp only [terminalWrite]
    obtain ⟨hdq, hdt, ws, hdo⟩ := drainContinue_fail ext
      { st with _myCmdQueue := q',
                termOut := st.termOut ++ [c1.command] }
      c1.command err hfail (by exact hne)
    simp only at hdq hdt hdo
    refine ⟨by rw [hdq]; exact hq'chain, by rw [hdt],
      ⟨c1.command :: ws, by simpa using hdo⟩⟩
  · rw [if_neg hecho]
    obtain ⟨hdq, hdt, ws, hdo⟩ := drainContinue_fail ext
      { st with _myCmdQueue := q' } c1.command err hfail (by exact hne)
    simp only at hdq hdt hdo
    refine ⟨by rw [hdq]; exact hq'chain, by rw [hdt],
      ⟨ws, by simpa using hdo⟩⟩

/-- Externals for the C4 witness: the interpreter throws "boom" on
every command; the upload/download helpers are inert. -/
def extEvalFails : Externals :=
  { eval := fun _ => (["w"], some "boom"),
    jsdownload := fun _ => ([], true),
    jsupload := fun _ => ([], none) }

/-- Terminal state for the C4 witness: two commands queued. -/
def stTwoQueued : DrawTerm :=
  { DrawTerm.init with
    _myCmdQueue :=
      { firstChain := [⟨"one", false⟩, ⟨"two", true⟩],
        lastNull := false, _myLength := 2 } }

/-- Closed instance of `failing_eval_does_not_block_next`: with "one"
and "two" queued and the evaluator throwing on "one", the drain step
leaves "two" at the head, schedules the next drain, and writes the
styled error followed by a fresh prompt. -/
theorem failing_eval_does_not_block_next_witness :
    stTwoQueued._myCmdQueue.WF ∧
    stTwoQueued._myCmdQueue.firstChain =
      ⟨"one", false⟩ :: ⟨"two", true⟩ :: ([] : List DrawCommand) ∧
    termEvalOutcome extEvalFails (DrawCommand.mk "one" false).command =
      some "InternalError: boom" ∧
    ((_termPopCommandFromQueue extEvalFails
        stTwoQueued)._myCmdQueue.firstChain =
        ⟨"two", true⟩ :: ([] : List DrawCommand) ∧
      (_termPopCommandFromQueue extEvalFails stTwoQueued).timeouts =
        stTwoQueued.timeouts + 1 ∧
      ∃ ws, (_termPopCommandFromQueue extEvalFails
          stTwoQueued).termOut =
        stTwoQueued.termOut ++ ws ++
          [errorStyledText "InternalError: boom", "\n\r",
            inputPromptText stTwoQueued._myTermHello
              (stTwoQueued._myTermInCounter + 1)]) :=
  ⟨by decide, by decide, by decide,
    failing_eval_does_not_block_next extEvalFails stTwoQueued
      ⟨"one", false⟩ ⟨"two", true⟩ [] "InternalError: boom"
      (by decide) (by decide) (by decide)⟩

/-- Closed instance of `queue_length_counts_live_nodes` after one add
and one pop. -/
theorem queue_length_counts_live_nodes_witness :
    (runOps DrawCommandQueue.init
        [QueueOp.add ⟨"c", true⟩, QueueOp.pop]).1._myLength =
      (((runOps DrawCommandQueue.init
        [QueueOp.add ⟨"c", true⟩,
          QueueOp.pop]).1.firstChain.length : Int)) ∧
    ((runOps DrawCommandQueue.init
        [QueueOp.add ⟨"c", true⟩, QueueOp.pop]).1.isEmpty = true ↔
      (runOps DrawCommandQueue.init
        [QueueOp.add ⟨"c", true⟩, QueueOp.pop]).2.length =
        (addsOf [QueueOp.add ⟨"c", true⟩, QueueOp.pop]).length) :=
  queue_length_counts_live_nodes [QueueOp.add ⟨"c", true⟩, QueueOp.pop]
